import Mathlib

/-!
Verification of the weaver remote-method-invocation stub layer.

The development shallowly embeds the generated stub code of
src/examples/onlineboutique/productcatalogservice/weaver_gen.go and
src/unnamed/part_001 (currencyservice stubs), together with the
transaction-history cache update of src/unnamed/part_000.

The runtime codec (package runtime/codegen: Encoder, Decoder) is code of
this repository that is not under src/; it is modelled from the spec's
wire-format contract (sections 4.1 and 6): integers are fixed-width
little-endian, strings are a 4-byte signed length followed by the UTF-8
bytes, sequences are a 4-byte signed length header (-1 meaning nil)
followed by the element encodings, an error value is a presence flag
followed by the message when present, and a decoder that runs out of
bytes enters a permanent error state and yields zero values.

Strings are represented by their byte sequences (type Str below); bytes
are natural numbers below 256.
-/

/-- A byte sequence; a Go string is represented by its UTF-8 bytes. -/
abbrev Str := List Nat

/-- Little-endian byte decomposition of a natural number into w bytes. -/
def bytesLE : Nat → Nat → List Nat
  | 0, _ => []
  | w + 1, n => n % 256 :: bytesLE w (n / 256)

/-- Value of a little-endian byte list. -/
def natOfLE : List Nat → Nat
  | [] => 0
  | b :: bs => b + 256 * natOfLE bs

/-- Reinterpret an unsigned w-byte value as a signed two-complement integer. -/
def toSigned (w u : Nat) : Int :=
  if 2 * u < 256 ^ w then (u : Int) else (u : Int) - 256 ^ w

/-- Two-complement little-endian bytes of a signed integer. -/
def intBytesLE (w : Nat) (n : Int) : List Nat :=
  bytesLE w (n % (256 ^ w : Int)).toNat

/-- Modelled from the spec: the codegen Encoder (package runtime/codegen,
not under src/) accumulates a byte buffer. -/
structure Encoder where
  data : List Nat
deriving Repr, DecidableEq

/-- A fresh encoder, as produced by codegen.NewEncoder(). Reset only
pre-sizes the buffer (a performance hint per the spec), so it does not
appear in the model. -/
def Encoder.empty : Encoder := ⟨[]⟩

/-- Modelled from the spec: fixed-width unsigned little-endian write. -/
def Encoder.uint (e : Encoder) (w n : Nat) : Encoder := ⟨e.data ++ bytesLE w n⟩

/-- Modelled from the spec: fixed-width signed little-endian write. -/
def Encoder.int (e : Encoder) (w : Nat) (n : Int) : Encoder :=
  ⟨e.data ++ intBytesLE w n⟩

/-- Modelled from the spec: Len writes a 4-byte signed length header. -/
def Encoder.Len (e : Encoder) (n : Int) : Encoder := e.int 4 n

/-- Modelled from the spec: String writes a 4-byte signed length followed
by the UTF-8 bytes of the string. -/
def Encoder.String (e : Encoder) (s : Str) : Encoder :=
  ⟨(e.Len (s.length : Int)).data ++ s⟩

/-- Modelled from the spec: a single byte write. -/
def Encoder.Byte (e : Encoder) (b : Nat) : Encoder := ⟨e.data ++ [b % 256]⟩

/-- Error kinds used by the stub layer, mirroring Go error values:
transport failures, the decoder terminal error, recovered panics, and
errors.Join(weaver.RemoteCallError, e) which attaches the remote-call
sentinel while keeping the underlying error reachable by unwrapping. -/
inductive GoError where
  | transport : Str → GoError
  | decodeFail : GoError
  | panicErr : Str → GoError
  | remoteJoin : GoError → GoError
deriving Repr, DecidableEq

/-- errors.Is(err, weaver.RemoteCallError): whether the remote-call
sentinel was attached by errors.Join. -/
def GoError.hasRemoteSentinel : GoError → Bool
  | .remoteJoin _ => true
  | _ => false

/-- Unwrapping an errors.Join(weaver.RemoteCallError, e) recovers e. -/
def GoError.unwrapRemote : GoError → Option GoError
  | .remoteJoin e => some e
  | _ => none

/-- Modelled from the spec: Error writes a presence flag followed by the
error message when present. The application error is represented by an
optional message. -/
def Encoder.Error (e : Encoder) (err : Option Str) : Encoder :=
  match err with
  | none => e.Byte 0
  | some m => (e.Byte 1).String m

/-- Modelled from the spec: the codegen Decoder (package runtime/codegen,
not under src/) holds the remaining bytes and a permanent error flag. -/
structure Decoder where
  data : List Nat
  err : Bool
deriving Repr, DecidableEq

/-- codegen.NewDecoder(data). -/
def Decoder.new (data : List Nat) : Decoder := ⟨data, false⟩

/-- Modelled from the spec: read w raw bytes. Once the error flag is set,
or when fewer than w bytes remain, the read yields the zero value and the
error flag stays set forever after. -/
def Decoder.readBytes (d : Decoder) (w : Nat) : List Nat × Decoder :=
  if d.err then ([], d)
  else if w ≤ d.data.length then (d.data.take w, ⟨d.data.drop w, false⟩)
  else ([], ⟨d.data, true⟩)

/-- Modelled from the spec: fixed-width unsigned little-endian read. -/
def Decoder.uint (d : Decoder) (w : Nat) : Nat × Decoder :=
  let r := d.readBytes w
  (natOfLE r.1, r.2)

/-- Modelled from the spec: fixed-width signed little-endian read. -/
def Decoder.int (d : Decoder) (w : Nat) : Int × Decoder :=
  let r := d.uint w
  (toSigned w r.1, r.2)

/-- Modelled from the spec: Len reads a 4-byte signed length header. -/
def Decoder.Len (d : Decoder) : Int × Decoder := d.int 4

/-- Modelled from the spec: String reads a 4-byte signed length then that
many bytes; a negative length (-1, reserved for absent) yields the empty
string since a Go string is never nil. -/
def Decoder.String (d : Decoder) : Str × Decoder :=
  let r := d.Len
  if r.1 < 0 then ([], r.2) else r.2.readBytes r.1.toNat

/-- Modelled from the spec: a single byte read. -/
def Decoder.Byte (d : Decoder) : Nat × Decoder :=
  let r := d.readBytes 1
  (natOfLE r.1, r.2)

/-- The Go method dec.Error(): the decoder's terminal error state. -/
def Decoder.Error (d : Decoder) : Option GoError :=
  if d.err then some .decodeFail else none

/-! ## Generated slice codec (from the source)

serviceweaver_enc_slice_string_4af10117 and its decoder, from
src/unnamed/part_001 lines 255-276 (the identical functions appear in
src/examples/onlineboutique/productcatalogservice/weaver_gen.go lines
385-406). A nil Go slice is none, a present slice is some list. -/

def serviceweaver_enc_slice_string_4af10117 (enc : Encoder) (arg : Option (List Str)) : Encoder :=
  match arg with
  | none => enc.Len (-1)
  | some l => l.foldl (fun e s => e.String s) (enc.Len (l.length : Int))

/-- The element-reading loop of the slice decoder: res[i] = dec.String()
for i below n. -/
def decStrings : Nat → Decoder → List Str × Decoder
  | 0, d => ([], d)
  | k + 1, d =>
      let r := d.String
      let rest := decStrings k r.2
      (r.1 :: rest.1, rest.2)

/-- serviceweaver_dec_slice_string_4af10117. In Go a decoded length below
-1 makes make([]string, n) panic, which the surrounding stub guards
convert into an error; that case is modelled by the decoder error state. -/
def serviceweaver_dec_slice_string_4af10117 (dec : Decoder) : Option (List Str) × Decoder :=
  let r := dec.Len
  if r.1 = -1 then (none, r.2)
  else if r.1 < 0 then (none, ⟨r.2.data, true⟩)
  else
    let l := decStrings r.1.toNat r.2
    (some l.1, l.2)

/-! ## Byte-level normal forms and round-trip lemmas -/

/-- The bytes contributed by one encoded string. -/
def strBytes (s : Str) : List Nat := intBytesLE 4 (s.length : Int) ++ s

/-- The bytes contributed by one encoded string slice. -/
def sliceStrBytes : Option (List Str) → List Nat
  | none => intBytesLE 4 (-1)
  | some l => intBytesLE 4 (l.length : Int) ++ (l.map strBytes).flatten

lemma Encoder.int_data (e : Encoder) (w : Nat) (n : Int) :
    (e.int w n).data = e.data ++ intBytesLE w n := rfl

lemma Encoder.String_data (e : Encoder) (s : Str) :
    (e.String s).data = e.data ++ strBytes s := by
  simp [Encoder.String, Encoder.Len, Encoder.int, strBytes]

lemma length_bytesLE (w n : Nat) : (bytesLE w n).length = w := by
  induction w generalizing n with
  | zero => rfl
  | succ w ih => simp [bytesLE, ih]

lemma length_intBytesLE (w : Nat) (n : Int) : (intBytesLE w n).length = w := by
  simp [intBytesLE, length_bytesLE]

lemma readBytes_append (w : Nat) (bs rest : List Nat) (h : bs.length = w) :
    Decoder.readBytes ⟨bs ++ rest, false⟩ w = (bs, ⟨rest, false⟩) := by
  subst h
  simp [Decoder.readBytes, List.take_left, List.drop_left]

lemma uint_bytesLE (w n : Nat) (rest : List Nat) :
    Decoder.uint ⟨bytesLE w n ++ rest, false⟩ w = (natOfLE (bytesLE w n), ⟨rest, false⟩) := by
  simp [Decoder.uint, readBytes_append w _ rest (length_bytesLE w n)]

lemma natOfLE_bytesLE4 (n : Nat) : natOfLE (bytesLE 4 n) = n % 4294967296 := by
  simp [bytesLE, natOfLE]
  omega

lemma natOfLE_bytesLE8 (n : Nat) : natOfLE (bytesLE 8 n) = n % 18446744073709551616 := by
  simp [bytesLE, natOfLE]
  omega

/-- Signed 4-byte round trip at the byte level. -/
lemma int4_round (n : Int) (rest : List Nat)
    (h1 : -(2147483648 : Int) ≤ n) (h2 : n < 2147483648) :
    Decoder.int ⟨intBytesLE 4 n ++ rest, false⟩ 4 = (n, ⟨rest, false⟩) := by
  have hmod : ((n % (256 ^ 4 : Int))).toNat % 4294967296 = (n % (4294967296 : Int)).toNat := by
    norm_num
    omega
  simp [Decoder.int, intBytesLE, uint_bytesLE, natOfLE_bytesLE4, toSigned, hmod]
  omega

/-- Signed 8-byte round trip at the byte level. -/
lemma int8_round (n : Int) (rest : List Nat)
    (h1 : -(9223372036854775808 : Int) ≤ n) (h2 : n < 9223372036854775808) :
    Decoder.int ⟨intBytesLE 8 n ++ rest, false⟩ 8 = (n, ⟨rest, false⟩) := by
  have hmod : ((n % (256 ^ 8 : Int))).toNat % 18446744073709551616
      = (n % (18446744073709551616 : Int)).toNat := by
    norm_num
    omega
  simp [Decoder.int, intBytesLE, uint_bytesLE, natOfLE_bytesLE8, toSigned, hmod]
  omega

/-- String round trip at the byte level. -/
lemma string_round (s : Str) (rest : List Nat) (h : s.length < 2147483648) :
    Decoder.String ⟨strBytes s ++ rest, false⟩ = (s, ⟨rest, false⟩) := by
  have hlen := int4_round (s.length : Int) (s ++ rest) (by omega) (by exact_mod_cast h)
  simp only [strBytes, List.append_assoc]
  simp [Decoder.String, Decoder.Len, hlen]
  have : ¬ ((s.length : Int) < 0) := by omega
  simp [this, readBytes_append s.length s rest (by simp)]

lemma foldl_String_data (l : List Str) (e : Encoder) :
    (l.foldl (fun e s => e.String s) e).data = e.data ++ (l.map strBytes).flatten := by
  induction l generalizing e with
  | nil => simp
  | cons s t ih => simp [ih, Encoder.String_data]

/-- The slice encoder produces the length header followed by the element
encodings (byte-level normal form). -/
lemma enc_slice_string_data (e : Encoder) (v : Option (List Str)) :
    (serviceweaver_enc_slice_string_4af10117 e v).data = e.data ++ sliceStrBytes v := by
  cases v with
  | none => simp [serviceweaver_enc_slice_string_4af10117, sliceStrBytes, Encoder.Len, Encoder.int]
  | some l =>
      simp [serviceweaver_enc_slice_string_4af10117, sliceStrBytes, foldl_String_data,
        Encoder.Len, Encoder.int]

lemma decStrings_round (l : List Str) (rest : List Nat)
    (h : ∀ s ∈ l, s.length < 2147483648) :
    decStrings l.length ⟨(l.map strBytes).flatten ++ rest, false⟩ = (l, ⟨rest, false⟩) := by
  induction l with
  | nil => simp [decStrings]
  | cons s t ih =>
      have hs : s.length < 2147483648 := h s (by simp)
      have ht : ∀ x ∈ t, x.length < 2147483648 := fun x hx => h x (by simp [hx])
      simp only [List.map_cons, List.flatten_cons, List.append_assoc, List.length_cons]
      simp [decStrings, string_round s _ hs, ih ht]

/-- The slice decoder inverts the slice encoder at the byte level. -/
lemma dec_slice_string_round (v : Option (List Str)) (rest : List Nat)
    (hlen : ∀ l : List Str, v = some l → l.length < 2147483648)
    (hels : ∀ l : List Str, v = some l → ∀ s ∈ l, s.length < 2147483648) :
    serviceweaver_dec_slice_string_4af10117 ⟨sliceStrBytes v ++ rest, false⟩
      = (v, ⟨rest, false⟩) := by
  cases v with
  | none =>
      have hneg := int4_round (-1) rest (by omega) (by omega)
      simp [serviceweaver_dec_slice_string_4af10117, sliceStrBytes, Decoder.Len, hneg]
  | some l =>
      have hl : l.length < 2147483648 := hlen l rfl
      have hpos := int4_round (l.length : Int) ((l.map strBytes).flatten ++ rest)
        (by omega) (by exact_mod_cast hl)
      simp only [sliceStrBytes, List.append_assoc]
      simp [serviceweaver_dec_slice_string_4af10117, Decoder.Len, hpos,
        show ¬ ((l.length : Int) = -1) by omega, show ¬ ((l.length : Int) < 0) by omega,
        decStrings_round l rest (hels l rfl)]

/-- Well-formedness of a string slice for the 4-byte signed length
headers: the slice length and every element length fit in int32. -/
def goodStrSlice : Option (List Str) → Prop
  | none => True
  | some l => l.length < 2147483648 ∧ ∀ s ∈ l, s.length < 2147483648

/-- C1: for every list of strings v (including nil and the empty list),
decoding the bytes produced by encoding v yields v again; a nil sequence
is encoded as the signed length header -1 and decodes back to nil, an
empty-but-present sequence is encoded as length 0 and decodes back to an
empty non-nil sequence, and a sequence of n elements is encoded as the
signed length header n followed by the n element encodings in order. -/
theorem slice_string_roundtrip (v : Option (List Str)) (h : goodStrSlice v) :
    serviceweaver_dec_slice_string_4af10117
        (Decoder.new (serviceweaver_enc_slice_string_4af10117 Encoder.empty v).data)
      = (v, ⟨[], false⟩) ∧
    (serviceweaver_enc_slice_string_4af10117 Encoder.empty none).data = intBytesLE 4 (-1) ∧
    (serviceweaver_enc_slice_string_4af10117 Encoder.empty (some [])).data = intBytesLE 4 0 ∧
    (∀ l : List Str, v = some l →
      (serviceweaver_enc_slice_string_4af10117 Encoder.empty v).data
        = intBytesLE 4 (l.length : Int) ++ (l.map strBytes).flatten) := by
  refine ⟨?_, ?_, ?_, ?_⟩
  · have hlen : ∀ l : List Str, v = some l → l.length < 2147483648 := by
      intro l hv; cases v with
      | none => cases hv
      | some l2 => cases hv; exact h.1
    have hels : ∀ l : List Str, v = some l → ∀ s ∈ l, s.length < 2147483648 := by
      intro l hv; cases v with
      | none => cases hv
      | some l2 => cases hv; exact h.2
    have := dec_slice_string_round v [] hlen hels
    simpa [Decoder.new, enc_slice_string_data, Encoder.empty] using this
  · simp [enc_slice_string_data, sliceStrBytes, Encoder.empty]
  · simp [enc_slice_string_data, sliceStrBytes, Encoder.empty]
  · intro l hv; subst hv; simp [enc_slice_string_data, sliceStrBytes, Encoder.empty]

/-- Witness for C1 at the spec scenario input, the slice of strings
"a", "bb" (as byte lists). -/
theorem slice_string_roundtrip_witness :
    goodStrSlice (some [[97], [98, 98]]) ∧
    serviceweaver_dec_slice_string_4af10117
        (Decoder.new
          (serviceweaver_enc_slice_string_4af10117 Encoder.empty (some [[97], [98, 98]])).data)
      = (some [[97], [98, 98]], ⟨[], false⟩) :=
  ⟨by simp [goodStrSlice],
    (slice_string_roundtrip (some [[97], [98, 98]]) (by simp [goodStrSlice])).1⟩

/-! ## Marshalable records: money.T (modelled) and Product (from the source) -/

/-- Modelled from the spec: the money.T marshalable record of the
onlineboutique example (its Go file is not under src/). Per the spec's
composition rule its serialization is the concatenation of its fields'
serializations in declaration order: currency code string, 8-byte signed
units, 4-byte signed nanos. -/
structure Money where
  CurrencyCode : Str
  Units : Int
  Nanos : Int
deriving Repr, DecidableEq

/-- Modelled from the spec: money.T WeaverMarshal, field by field in
declaration order. -/
def Money.WeaverMarshal (x : Money) (enc : Encoder) : Encoder :=
  ((enc.String x.CurrencyCode).int 8 x.Units).int 4 x.Nanos

/-- Modelled from the spec: money.T WeaverUnmarshal, field by field in
declaration order. -/
def Money.WeaverUnmarshal (dec : Decoder) : Money × Decoder :=
  let r1 := dec.String
  let r2 := r1.2.int 8
  let r3 := r2.2.int 4
  (⟨r1.1, r2.1, r3.1⟩, r3.2)

/-- The Product record of
src/examples/onlineboutique/productcatalogservice (strings, a money.T
price, and a string slice; a nil Categories slice is none). -/
structure Product where
  ID : Str
  Name : Str
  Description : Str
  Picture : Str
  PriceUSD : Money
  Categories : Option (List Str)
deriving Repr, DecidableEq

/-- The Go zero value of Product. -/
def Product.zero : Product := ⟨[], [], [], [], ⟨[], 0, 0⟩, none⟩

/-- Product.WeaverMarshal from weaver_gen.go lines 361-371: each field is
encoded in declaration order. The nil-receiver panic guard does not
apply: the model works on values. -/
def Product.WeaverMarshal (x : Product) (enc : Encoder) : Encoder :=
  serviceweaver_enc_slice_string_4af10117
    (x.PriceUSD.WeaverMarshal
      ((((enc.String x.ID).String x.Name).String x.Description).String x.Picture))
    x.Categories

/-- Product.WeaverUnmarshal from weaver_gen.go lines 373-383: each field
is decoded in declaration order. -/
def Product.WeaverUnmarshal (dec : Decoder) : Product × Decoder :=
  let r1 := dec.String
  let r2 := r1.2.String
  let r3 := r2.2.String
  let r4 := r3.2.String
  let r5 := Money.WeaverUnmarshal r4.2
  let r6 := serviceweaver_dec_slice_string_4af10117 r5.2
  (⟨r1.1, r2.1, r3.1, r4.1, r5.1, r6.1⟩, r6.2)

/-- The bytes contributed by an encoded money.T. -/
def moneyBytes (x : Money) : List Nat :=
  strBytes x.CurrencyCode ++ intBytesLE 8 x.Units ++ intBytesLE 4 x.Nanos

/-- The bytes contributed by an encoded Product. -/
def productBytes (x : Product) : List Nat :=
  strBytes x.ID ++ strBytes x.Name ++ strBytes x.Description ++ strBytes x.Picture
    ++ moneyBytes x.PriceUSD ++ sliceStrBytes x.Categories

lemma money_marshal_data (x : Money) (e : Encoder) :
    (x.WeaverMarshal e).data = e.data ++ moneyBytes x := by
  simp [Money.WeaverMarshal, moneyBytes, Encoder.String_data, Encoder.int_data]

lemma product_marshal_data (x : Product) (e : Encoder) :
    (x.WeaverMarshal e).data = e.data ++ productBytes x := by
  simp [Product.WeaverMarshal, productBytes, Encoder.String_data,
    money_marshal_data, enc_slice_string_data]

/-- Well-formedness of a money.T value: the currency code length fits in
int32, units fit in int64, nanos fit in int32. -/
def goodMoney (x : Money) : Prop :=
  x.CurrencyCode.length < 2147483648 ∧
  -(9223372036854775808 : Int) ≤ x.Units ∧ x.Units < 9223372036854775808 ∧
  -(2147483648 : Int) ≤ x.Nanos ∧ x.Nanos < 2147483648

/-- Well-formedness of a Product value for the 4-byte length headers. -/
def goodProduct (x : Product) : Prop :=
  x.ID.length < 2147483648 ∧ x.Name.length < 2147483648 ∧
  x.Description.length < 2147483648 ∧ x.Picture.length < 2147483648 ∧
  goodMoney x.PriceUSD ∧ goodStrSlice x.Categories

lemma money_round (x : Money) (rest : List Nat) (h : goodMoney x) :
    Money.WeaverUnmarshal ⟨moneyBytes x ++ rest, false⟩ = (x, ⟨rest, false⟩) := by
  obtain ⟨h1, h2, h3, h4, h5⟩ := h
  simp only [moneyBytes, List.append_assoc]
  simp [Money.WeaverUnmarshal, string_round _ _ h1, int8_round _ _ h2 h3,
    int4_round _ _ h4 h5]

lemma product_round (x : Product) (rest : List Nat) (h : goodProduct x) :
    Product.WeaverUnmarshal ⟨productBytes x ++ rest, false⟩ = (x, ⟨rest, false⟩) := by
  obtain ⟨h1, h2, h3, h4, h5, h6⟩ := h
  have hlen : ∀ l : List Str, x.Categories = some l → l.length < 2147483648 := by
    intro l hv
    cases hc : x.Categories with
    | none => rw [hc] at hv; cases hv
    | some l2 =>
        rw [hc] at hv; cases hv; rw [hc] at h6; exact h6.1
  have hels : ∀ l : List Str, x.Categories = some l → ∀ s ∈ l, s.length < 2147483648 := by
    intro l hv
    cases hc : x.Categories with
    | none => rw [hc] at hv; cases hv
    | some l2 =>
        rw [hc] at hv; cases hv; rw [hc] at h6; exact h6.2
  simp only [productBytes, List.append_assoc]
  simp [Product.WeaverUnmarshal, string_round _ _ h1, string_round _ _ h2,
    string_round _ _ h3, string_round _ _ h4, money_round _ _ h5,
    dec_slice_string_round _ _ hlen hels]

/-- C9: a marshalable record's serialization is the ordered concatenation
of its fields' serializations in declaration order, and unmarshalling
reads the fields back in that order, reconstructing an equal record
(shown for the generated Product record). -/
theorem product_marshal_concat_roundtrip (x : Product) (h : goodProduct x) :
    (x.WeaverMarshal Encoder.empty).data
      = (Encoder.empty.String x.ID).data ++ (Encoder.empty.String x.Name).data
        ++ (Encoder.empty.String x.Description).data ++ (Encoder.empty.String x.Picture).data
        ++ (x.PriceUSD.WeaverMarshal Encoder.empty).data
        ++ (serviceweaver_enc_slice_string_4af10117 Encoder.empty x.Categories).data ∧
    Product.WeaverUnmarshal (Decoder.new (x.WeaverMarshal Encoder.empty).data)
      = (x, ⟨[], false⟩) := by
  constructor
  · simp [product_marshal_data, Encoder.String_data, money_marshal_data,
      enc_slice_string_data, Encoder.empty, productBytes, moneyBytes]
  · have := product_round x [] h
    simpa [Decoder.new, product_marshal_data, Encoder.empty] using this

/-- Witness for C9 at a concrete product value. -/
theorem product_marshal_concat_roundtrip_witness :
    goodProduct ⟨[79, 76], [78], [], [80], ⟨[85, 83, 68], -5, 990000000⟩, some [[97], []]⟩ ∧
    Product.WeaverUnmarshal
        (Decoder.new
          ((Product.WeaverMarshal
            ⟨[79, 76], [78], [], [80], ⟨[85, 83, 68], -5, 990000000⟩, some [[97], []]⟩
            Encoder.empty).data))
      = (⟨[79, 76], [78], [], [80], ⟨[85, 83, 68], -5, 990000000⟩, some [[97], []]⟩,
          ⟨[], false⟩) :=
  ⟨by simp [goodProduct, goodMoney, goodStrSlice],
    (product_marshal_concat_roundtrip
      ⟨[79, 76], [78], [], [80], ⟨[85, 83, 68], -5, 990000000⟩, some [[97], []]⟩
      (by simp [goodProduct, goodMoney, goodStrSlice])).2⟩

/-! ## Slice-of-Product codec (from the source, weaver_gen.go lines 410-431) -/

def serviceweaver_enc_slice_Product_3e9d9e07 (enc : Encoder) (arg : Option (List Product)) : Encoder :=
  match arg with
  | none => enc.Len (-1)
  | some l => l.foldl (fun e x => x.WeaverMarshal e) (enc.Len (l.length : Int))

/-- The element-reading loop of the Product slice decoder. -/
def decProducts : Nat → Decoder → List Product × Decoder
  | 0, d => ([], d)
  | k + 1, d =>
      let r := Product.WeaverUnmarshal d
      let rest := decProducts k r.2
      (r.1 :: rest.1, rest.2)

/-- serviceweaver_dec_slice_Product_3e9d9e07. As for the string slice, a
decoded length below -1 panics in Go (make with negative length) and is
modelled by the decoder error state. -/
def serviceweaver_dec_slice_Product_3e9d9e07 (dec : Decoder) : Option (List Product) × Decoder :=
  let r := dec.Len
  if r.1 = -1 then (none, r.2)
  else if r.1 < 0 then (none, ⟨r.2.data, true⟩)
  else
    let l := decProducts r.1.toNat r.2
    (some l.1, l.2)

/-! ## Stub-layer observable state

Metrics are modelled by their observable content: counters as naturals,
distributions as the ordered list of recorded samples (latency samples
carry no meaningful value in the model, so only their count is kept).
Span activity is modelled by counters of starts, ends, and error
recordings; operations on the no-op span returned when the inbound
context has no valid parent trace are not observable and count zero. -/

structure MState where
  count : Nat
  errorCount : Nat
  latencySamples : Nat
  bytesRequest : List Nat
  bytesReply : List Nat
  spanStarts : Nat
  spanEnds : Nat
  spanErrors : Nat
deriving Repr, DecidableEq

/-- Freshly created method metrics: everything zero. -/
def MState.init : MState := ⟨0, 0, 0, [], [], 0, 0, 0⟩

/-- Outcome of the transport invocation stub.Run: a reply buffer, an
error, or a runtime fault raised during the call. -/
inductive TransportResult where
  | reply : List Nat → TransportResult
  | fail : Str → TransportResult
  | panicked : Str → TransportResult
deriving Repr, DecidableEq

/-- One call's environment for a client-stub method with arguments:
injected runtime faults at the encode and decode stages (none occur for
these argument shapes unless a defect is present; the spec requires the
stub to contain them) and the transport outcome. -/
structure FaultSpec where
  encodePanic : Option Str
  runResult : TransportResult
  decodePanic : Option Str
deriving Repr, DecidableEq

/-- How the client-stub body hands control to its deferred function:
returning with an error value (possibly none), or panicking. In every
panic path of the generated body the named error result is still nil,
so recover() runs and its result is joined with the sentinel. -/
inductive BodyExit where
  | ret : Option GoError → BodyExit
  | panicked : Str → BodyExit
deriving Repr, DecidableEq

/-- The deferred function of the generated client-stub methods
(weaver_gen.go lines 114-131 and the analogous blocks): convert a
recovered panic into a sentinel-joined error, then on any error record
it on the span and bump the error counter, end the span, and record the
latency sample. -/
def clientDefer (st : MState) (validSpan : Bool) (exit : BodyExit) : MState × Option GoError :=
  let err : Option GoError :=
    match exit with
    | .ret e => e
    | .panicked p => some (GoError.remoteJoin (GoError.panicErr p))
  let st :=
    match err with
    | some _ =>
        { st with errorCount := st.errorCount + 1,
                  spanErrors := st.spanErrors + (if validSpan then 1 else 0) }
    | none => st
  let st := { st with spanEnds := st.spanEnds + (if validSpan then 1 else 0) }
  let st := { st with latencySamples := st.latencySamples + 1 }
  (st, err)

/-- t_client_stub.GetProduct from weaver_gen.go lines 103-158. The
metrics/span state is threaded explicitly; validSpan is whether the
inbound context carries a valid parent trace. On a fault during
decoding the partially assigned result is modelled by the zero value
(the claims only constrain the result on the transport-error path,
where no decode has happened). -/
def t_client_stub_GetProduct (st : MState) (validSpan : Bool) (a0 : Str) (f : FaultSpec) :
    MState × Product × Option GoError :=
  let st := { st with count := st.count + 1 }
  let st := if validSpan then { st with spanStarts := st.spanStarts + 1 } else st
  match f.encodePanic with
  | some p =>
      let r := clientDefer st validSpan (.panicked p)
      (r.1, Product.zero, r.2)
  | none =>
      let enc := Encoder.empty.String a0
      let st := { st with bytesRequest := st.bytesRequest ++ [enc.data.length] }
      match f.runResult with
      | .panicked p =>
          let r := clientDefer st validSpan (.panicked p)
          (r.1, Product.zero, r.2)
      | .fail e =>
          let r := clientDefer st validSpan (.ret (some (.remoteJoin (.transport e))))
          (r.1, Product.zero, r.2)
      | .reply results =>
          let st := { st with bytesReply := st.bytesReply ++ [results.length] }
          match f.decodePanic with
          | some p =>
              let r := clientDefer st validSpan (.panicked p)
              (r.1, Product.zero, r.2)
          | none =>
              let d := Product.WeaverUnmarshal (Decoder.new results)
              let r := clientDefer st validSpan (.ret d.2.Error)
              (r.1, d.1, r.2)

/-- Faults for a no-argument client-stub method: there is no encode
stage. -/
structure FaultSpecNA where
  runResult : TransportResult
  decodePanic : Option Str
deriving Repr, DecidableEq

/-- t_client_stub.ListProducts from weaver_gen.go lines 160-207: no
arguments, so the request-size sample is 0 and stub.Run receives nil
argument bytes. -/
def t_client_stub_ListProducts (st : MState) (validSpan : Bool) (f : FaultSpecNA) :
    MState × Option (List Product) × Option GoError :=
  let st := { st with count := st.count + 1 }
  let st := if validSpan then { st with spanStarts := st.spanStarts + 1 } else st
  let st := { st with bytesRequest := st.bytesRequest ++ [0] }
  match f.runResult with
  | .panicked p =>
      let r := clientDefer st validSpan (.panicked p)
      (r.1, none, r.2)
  | .fail e =>
      let r := clientDefer st validSpan (.ret (some (.remoteJoin (.transport e))))
      (r.1, none, r.2)
  | .reply results =>
      let st := { st with bytesReply := st.bytesReply ++ [results.length] }
      match f.decodePanic with
      | some p =>
          let r := clientDefer st validSpan (.panicked p)
          (r.1, none, r.2)
      | none =>
          let d := serviceweaver_dec_slice_Product_3e9d9e07 (Decoder.new results)
          let r := clientDefer st validSpan (.ret d.2.Error)
          (r.1, d.1, r.2)

/-- t_local_stub.GetProduct from weaver_gen.go lines 43-58: when the
inbound context carries a valid parent trace, start an internal child
span and end it on return, recording the error on it if any; otherwise
perform no span operation. No metrics, no serialization; the
implementation outcome is passed through unchanged. -/
def t_local_stub_GetProduct (st : MState) (validSpan : Bool)
    (implOut : Product × Option GoError) : MState × Product × Option GoError :=
  let st := if validSpan then { st with spanStarts := st.spanStarts + 1 } else st
  let st :=
    if validSpan then
      { st with
          spanErrors := st.spanErrors + (if implOut.2.isSome then 1 else 0),
          spanEnds := st.spanEnds + 1 }
    else st
  (st, implOut.1, implOut.2)

/-! ## Server stub (from the source) -/

/-- Outcome of calling the real implementation: a normal return or a
runtime fault. -/
inductive ImplResult (α : Type) where
  | ok : α → ImplResult α
  | panicked : Str → ImplResult α
deriving Repr, DecidableEq

/-- t_server_stub.getProduct from weaver_gen.go lines 287-310: the
deferred recover spans the whole handler body, so it converts any panic
raised after it is installed, including one raised by the implementation
call itself (the source marks this with a TODO). The argument is decoded
(the decoder's error state is never consulted), the implementation is
invoked, and the reply carries the encoded result followed by the
encoded application error. -/
def t_server_stub_getProduct (impl : Str → ImplResult (Product × Option Str))
    (args : List Nat) : List Nat × Option GoError :=
  let d := (Decoder.new args).String
  match impl d.1 with
  | .panicked p => ([], some (.panicErr p))
  | .ok out =>
      let enc := (out.1.WeaverMarshal Encoder.empty).Error out.2
      (enc.data, none)

/-- t_server_stub.GetStubFn from weaver_gen.go lines 274-285: dispatch by
method name, nil (none) for any unknown name. -/
inductive ProductCatalogHandler where
  | getProduct | listProducts | searchProducts
deriving Repr, DecidableEq

def t_server_stub_GetStubFn (method : String) : Option ProductCatalogHandler :=
  match method with
  | "GetProduct" => some .getProduct
  | "ListProducts" => some .listProducts
  | "SearchProducts" => some .searchProducts
  | _ => none

/-! ## Client-stub claims -/

/-- The error value the deferred function ends up with for a given body
exit: a recovered panic is joined with the remote-call sentinel. -/
def exitErr : BodyExit → Option GoError
  | .ret e => e
  | .panicked p => some (.remoteJoin (.panicErr p))

lemma clientDefer_snd (st : MState) (v : Bool) (exit : BodyExit) :
    (clientDefer st v exit).2 = exitErr exit := by
  rcases exit with e | p
  · cases e <;> simp [clientDefer, exitErr]
  · simp [clientDefer, exitErr]

lemma clientDefer_count (st : MState) (v : Bool) (exit : BodyExit) :
    (clientDefer st v exit).1.count = st.count := by
  rcases exit with e | p
  · cases e <;> simp [clientDefer]
  · simp [clientDefer]

lemma clientDefer_errorCount (st : MState) (v : Bool) (exit : BodyExit) :
    (clientDefer st v exit).1.errorCount
      = st.errorCount + (if (exitErr exit).isSome then 1 else 0) := by
  rcases exit with e | p
  · cases e <;> simp [clientDefer, exitErr]
  · simp [clientDefer, exitErr]

lemma clientDefer_latencySamples (st : MState) (v : Bool) (exit : BodyExit) :
    (clientDefer st v exit).1.latencySamples = st.latencySamples + 1 := by
  rcases exit with e | p
  · cases e <;> simp [clientDefer]
  · simp [clientDefer]

lemma clientDefer_bytesRequest (st : MState) (v : Bool) (exit : BodyExit) :
    (clientDefer st v exit).1.bytesRequest = st.bytesRequest := by
  rcases exit with e | p
  · cases e <;> simp [clientDefer]
  · simp [clientDefer]

lemma clientDefer_bytesReply (st : MState) (v : Bool) (exit : BodyExit) :
    (clientDefer st v exit).1.bytesReply = st.bytesReply := by
  rcases exit with e | p
  · cases e <;> simp [clientDefer]
  · simp [clientDefer]

lemma clientDefer_spanStarts (st : MState) (v : Bool) (exit : BodyExit) :
    (clientDefer st v exit).1.spanStarts = st.spanStarts := by
  rcases exit with e | p
  · cases e <;> simp [clientDefer]
  · simp [clientDefer]

lemma clientDefer_spanEnds (st : MState) (v : Bool) (exit : BodyExit) :
    (clientDefer st v exit).1.spanEnds = st.spanEnds + (if v then 1 else 0) := by
  rcases exit with e | p
  · cases e <;> simp [clientDefer]
  · simp [clientDefer]

/-- C2: when the transport invocation fails, the call returns the
transport error joined with the remote-call sentinel (unwrapping
recovers the underlying error), records exactly one error-counter
increment and one latency sample, ends the span it started (one
start/end when a parent trace is valid), and produces no decoded
result: the result slot is the zero value. -/
theorem client_transport_failure (st : MState) (v : Bool) (a0 e : Str) (dp : Option Str) :
    (t_client_stub_GetProduct st v a0 ⟨none, .fail e, dp⟩).2.1 = Product.zero ∧
    (t_client_stub_GetProduct st v a0 ⟨none, .fail e, dp⟩).2.2
      = some (.remoteJoin (.transport e)) ∧
    ((t_client_stub_GetProduct st v a0 ⟨none, .fail e, dp⟩).2.2.map GoError.unwrapRemote)
      = some (some (.transport e)) ∧
    (t_client_stub_GetProduct st v a0 ⟨none, .fail e, dp⟩).1.errorCount = st.errorCount + 1 ∧
    (t_client_stub_GetProduct st v a0 ⟨none, .fail e, dp⟩).1.latencySamples
      = st.latencySamples + 1 ∧
    (t_client_stub_GetProduct st v a0 ⟨none, .fail e, dp⟩).1.count = st.count + 1 ∧
    (t_client_stub_GetProduct st v a0 ⟨none, .fail e, dp⟩).1.spanStarts
      = st.spanStarts + (if v then 1 else 0) ∧
    (t_client_stub_GetProduct st v a0 ⟨none, .fail e, dp⟩).1.spanEnds
      = st.spanEnds + (if v then 1 else 0) ∧
    (t_client_stub_GetProduct st v a0 ⟨none, .fail e, dp⟩).1.bytesReply = st.bytesReply := by
  cases v <;>
    simp [t_client_stub_GetProduct, clientDefer, GoError.unwrapRemote]

/-- C3: a runtime fault raised during argument encoding, the transport
call, or result decoding is converted by the deferred recovery into an
error joined with the remote-call sentinel, and the call returns
normally with that error (the model is a total function: no fault
escapes the stub). -/
theorem client_panic_recovered (st : MState) (v : Bool) (a0 p : Str)
    (rr : TransportResult) (dp : Option Str) (results : List Nat) :
    (t_client_stub_GetProduct st v a0 ⟨some p, rr, dp⟩).2.2
      = some (.remoteJoin (.panicErr p)) ∧
    (t_client_stub_GetProduct st v a0 ⟨none, .panicked p, dp⟩).2.2
      = some (.remoteJoin (.panicErr p)) ∧
    (t_client_stub_GetProduct st v a0 ⟨none, .reply results, some p⟩).2.2
      = some (.remoteJoin (.panicErr p)) := by
  cases v <;>
    simp [t_client_stub_GetProduct, clientDefer]

/-- C8: a call through the local stub or the client stub performs
exactly one span start and one span end when the inbound context has a
valid parent trace, on every success and failure path, and zero span
operations otherwise. -/
theorem span_lifecycle (st : MState) (v : Bool) (a0 : Str) (f : FaultSpec)
    (implOut : Product × Option GoError) :
    ((t_local_stub_GetProduct st v implOut).1.spanStarts
        = st.spanStarts + (if v then 1 else 0) ∧
      (t_local_stub_GetProduct st v implOut).1.spanEnds
        = st.spanEnds + (if v then 1 else 0)) ∧
    ((t_client_stub_GetProduct st v a0 f).1.spanStarts
        = st.spanStarts + (if v then 1 else 0) ∧
      (t_client_stub_GetProduct st v a0 f).1.spanEnds
        = st.spanEnds + (if v then 1 else 0)) := by
  rcases f with ⟨ep, rr, dp⟩
  cases ep <;> cases rr <;> cases dp <;> cases v <;>
    simp [t_local_stub_GetProduct, t_client_stub_GetProduct,
      clientDefer_spanStarts, clientDefer_spanEnds]

/-! ## Server-stub claims -/

/-- The bytes of the trailing application-error slot: a presence flag,
then the message when present. -/
def errSlotBytes : Option Str → List Nat
  | none => [0]
  | some m => 1 :: strBytes m

lemma Encoder.Error_data (e : Encoder) (err : Option Str) :
    (e.Error err).data = e.data ++ errSlotBytes err := by
  cases err <;> simp [Encoder.Error, Encoder.Byte, Encoder.String_data, errSlotBytes]

/-- C4: every server-stub handler invocation whose implementation call
returns (with or without an application error) produces a reply buffer
holding the encoded result followed by the encoded application error
slot, and the handler itself returns a nil transport-level error. -/
theorem server_reply_carries_both_slots (f : Str → Product × Option Str) (args : List Nat) :
    t_server_stub_getProduct (fun s => .ok (f s)) args
      = (((f ((Decoder.new args).String).1).1.WeaverMarshal Encoder.empty).data
          ++ errSlotBytes (f ((Decoder.new args).String).1).2, none) := by
  simp [t_server_stub_getProduct, Encoder.Error_data]

/-- C5 evaluation: the server-stub deferred guard does recover a panic
raised inside the implementation call itself, returning it as an error
with a nil reply buffer, contrary to the claim (the source marks this
behavior with a TODO asking for it to be fixed). -/
theorem server_guard_recovers_impl_panic :
    t_server_stub_getProduct (fun _ => .panicked [98, 111, 111, 109]) (strBytes [120])
      = ([], some (.panicErr [98, 111, 111, 109])) := by
  rfl

/-- C6: the dispatch lookup returns the matching handler for each of the
declared method names and an absent result for every other string,
without crashing. -/
theorem dispatch_lookup (m : String)
    (h1 : m ≠ "GetProduct") (h2 : m ≠ "ListProducts") (h3 : m ≠ "SearchProducts") :
    t_server_stub_GetStubFn m = none ∧
    t_server_stub_GetStubFn "GetProduct" = some .getProduct ∧
    t_server_stub_GetStubFn "ListProducts" = some .listProducts ∧
    t_server_stub_GetStubFn "SearchProducts" = some .searchProducts := by
  refine ⟨?_, rfl, rfl, rfl⟩
  unfold t_server_stub_GetStubFn
  split <;> simp_all

/-- Witness for C6 at the unknown method name "Foo". -/
theorem dispatch_lookup_witness :
    ("Foo" ≠ "GetProduct" ∧ "Foo" ≠ "ListProducts" ∧ "Foo" ≠ "SearchProducts") ∧
    t_server_stub_GetStubFn "Foo" = none :=
  ⟨⟨by decide, by decide, by decide⟩,
    (dispatch_lookup "Foo" (by decide) (by decide) (by decide)).1⟩

/-! ## Metrics over call sequences (C7) -/

/-- One call through the GetProduct client stub: span validity of the
inbound context, the argument, and the environment for this call. -/
structure CallSpec where
  validSpan : Bool
  a0 : Str
  fault : FaultSpec
deriving Repr, DecidableEq

/-- Thread the method's metrics state through a sequence of calls. -/
def runGetProductCalls (st : MState) (calls : List CallSpec) : MState :=
  calls.foldl (fun s c => (t_client_stub_GetProduct s c.validSpan c.a0 c.fault).1) st

/-- Whether a GetProduct call in this environment returns an error. -/
def callFails (f : FaultSpec) : Bool :=
  match f.encodePanic with
  | some _ => true
  | none =>
      match f.runResult with
      | .panicked _ => true
      | .fail _ => true
      | .reply results =>
          f.decodePanic.isSome || (Product.WeaverUnmarshal (Decoder.new results)).2.err

/-- Whether the transport invocation returns successfully. -/
def transportOk (f : FaultSpec) : Bool :=
  match f.runResult with
  | .reply _ => true
  | _ => false

lemma getProduct_step (st : MState) (v : Bool) (a0 : Str) (f : FaultSpec)
    (hf : f.encodePanic = none) :
    (t_client_stub_GetProduct st v a0 f).1.count = st.count + 1 ∧
    (t_client_stub_GetProduct st v a0 f).1.errorCount
      = st.errorCount + (if callFails f then 1 else 0) ∧
    (t_client_stub_GetProduct st v a0 f).1.latencySamples = st.latencySamples + 1 ∧
    (t_client_stub_GetProduct st v a0 f).1.bytesRequest.length
      = st.bytesRequest.length + 1 ∧
    (t_client_stub_GetProduct st v a0 f).1.bytesReply.length
      = st.bytesReply.length + (if transportOk f then 1 else 0) := by
  obtain ⟨ep, rr, dp⟩ := f
  have hep : ep = none := hf
  subst hep
  cases rr with
  | panicked p =>
      cases v <;>
        simp [t_client_stub_GetProduct, callFails, transportOk, clientDefer_count,
          clientDefer_errorCount, clientDefer_latencySamples, clientDefer_bytesRequest,
          clientDefer_bytesReply, exitErr]
  | fail e =>
      cases v <;>
        simp [t_client_stub_GetProduct, callFails, transportOk, clientDefer_count,
          clientDefer_errorCount, clientDefer_latencySamples, clientDefer_bytesRequest,
          clientDefer_bytesReply, exitErr]
  | reply results =>
      cases dp with
      | some p =>
          cases v <;>
            simp [t_client_stub_GetProduct, callFails, transportOk, clientDefer_count,
              clientDefer_errorCount, clientDefer_latencySamples, clientDefer_bytesRequest,
              clientDefer_bytesReply, exitErr]
      | none =>
          cases hb : (Product.WeaverUnmarshal (Decoder.new results)).2.err <;> cases v <;>
            simp [t_client_stub_GetProduct, callFails, transportOk, clientDefer_count,
              clientDefer_errorCount, clientDefer_latencySamples, clientDefer_bytesRequest,
              clientDefer_bytesReply, exitErr, Decoder.Error, hb]

lemma runGetProductCalls_stats (calls : List CallSpec) (st : MState)
    (h : ∀ c ∈ calls, c.fault.encodePanic = none) :
    (runGetProductCalls st calls).count = st.count + calls.length ∧
    (runGetProductCalls st calls).errorCount
      = st.errorCount + calls.countP (fun c => callFails c.fault) ∧
    (runGetProductCalls st calls).latencySamples = st.latencySamples + calls.length ∧
    (runGetProductCalls st calls).bytesRequest.length
      = st.bytesRequest.length + calls.length ∧
    (runGetProductCalls st calls).bytesReply.length
      = st.bytesReply.length + calls.countP (fun c => transportOk c.fault) := by
  induction calls generalizing st with
  | nil => simp [runGetProductCalls]
  | cons c t ih =>
      have hc : c.fault.encodePanic = none := h c (by simp)
      have ht : ∀ x ∈ t, x.fault.encodePanic = none := fun x hx => h x (by simp [hx])
      have step := getProduct_step st c.validSpan c.a0 c.fault hc
      have rest := ih ((t_client_stub_GetProduct st c.validSpan c.a0 c.fault).1) ht
      obtain ⟨s1, s2, s3, s4, s5⟩ := step
      obtain ⟨r1, r2, r3, r4, r5⟩ := rest
      simp only [runGetProductCalls, List.foldl_cons] at r1 r2 r3 r4 r5 ⊢
      simp only [List.countP_cons, List.length_cons]
      cases hcf : callFails c.fault <;> cases hto : transportOk c.fault <;>
        simp only [hcf, hto, if_true, if_false] at s2 s5 ⊢ <;>
        refine ⟨by omega, by omega, by omega, by omega, by omega⟩

lemma getProduct_bytesRequest (st : MState) (v : Bool) (a0 : Str) (f : FaultSpec)
    (hf : f.encodePanic = none) :
    (t_client_stub_GetProduct st v a0 f).1.bytesRequest
      = st.bytesRequest ++ [(Encoder.empty.String a0).data.length] := by
  obtain ⟨ep, rr, dp⟩ := f
  have hep : ep = none := hf
  subst hep
  cases rr <;> cases dp <;> cases v <;>
    simp [t_client_stub_GetProduct, clientDefer_bytesRequest]

lemma listProducts_bytesRequest (st : MState) (v : Bool) (f : FaultSpecNA) :
    (t_client_stub_ListProducts st v f).1.bytesRequest = st.bytesRequest ++ [0] := by
  obtain ⟨rr, dp⟩ := f
  cases rr <;> cases dp <;> cases v <;>
    simp [t_client_stub_ListProducts, clientDefer_bytesRequest]

/-- C7 counterexample: after one call whose transport invocation fails,
the invocation counter is 1 but the reply-size distribution holds 0
samples, not 1: the generated code returns before recording the reply
size, so the claim that the request/reply size distributions each hold
exactly N samples after N calls is false. -/
theorem metrics_reply_samples_counterexample :
    (runGetProductCalls MState.init
        [⟨false, [], ⟨none, .fail [120], none⟩⟩]).count = 1 ∧
    ¬ ((runGetProductCalls MState.init
        [⟨false, [], ⟨none, .fail [120], none⟩⟩]).bytesReply.length = 1) := by
  decide

/-- C7 amended: after any sequence of N GetProduct calls in which no
encode-stage fault occurs (none can occur for this argument shape), the
invocation counter grows by N, the error counter by the number of failed
calls, and the latency and request-size distributions gain exactly N
samples; the reply-size distribution gains one sample per call whose
transport invocation returned successfully. The request size recorded is
the length of the encoded argument buffer, and 0 for the no-argument
ListProducts method. -/
theorem metrics_monotonicity (st : MState) (calls : List CallSpec)
    (h : ∀ c ∈ calls, c.fault.encodePanic = none) :
    (runGetProductCalls st calls).count = st.count + calls.length ∧
    (runGetProductCalls st calls).errorCount
      = st.errorCount + calls.countP (fun c => callFails c.fault) ∧
    (runGetProductCalls st calls).latencySamples = st.latencySamples + calls.length ∧
    (runGetProductCalls st calls).bytesRequest.length
      = st.bytesRequest.length + calls.length ∧
    (runGetProductCalls st calls).bytesReply.length
      = st.bytesReply.length + calls.countP (fun c => transportOk c.fault) ∧
    (∀ (v : Bool) (a0 : Str) (f : FaultSpec), f.encodePanic = none →
      (t_client_stub_GetProduct st v a0 f).1.bytesRequest
        = st.bytesRequest ++ [(Encoder.empty.String a0).data.length]) ∧
    (∀ (v : Bool) (f : FaultSpecNA),
      (t_client_stub_ListProducts st v f).1.bytesRequest = st.bytesRequest ++ [0]) := by
  obtain ⟨a1, a2, a3, a4, a5⟩ := runGetProductCalls_stats calls st h
  exact ⟨a1, a2, a3, a4, a5,
    fun v a0 f hf => getProduct_bytesRequest st v a0 f hf,
    fun v f => listProducts_bytesRequest st v f⟩

/-- Witness for C7 (amended) on a concrete two-call sequence: one call
whose reply decodes with an error (empty reply buffer) and one call
whose transport fails. -/
theorem metrics_monotonicity_witness :
    (∀ c ∈ ([⟨true, [97], ⟨none, .reply [], none⟩⟩,
             ⟨false, [], ⟨none, .fail [120], none⟩⟩] : List CallSpec),
        c.fault.encodePanic = none) ∧
    (runGetProductCalls MState.init
        [⟨true, [97], ⟨none, .reply [], none⟩⟩,
         ⟨false, [], ⟨none, .fail [120], none⟩⟩]).count
      = MState.init.count
        + ([⟨true, [97], ⟨none, .reply [], none⟩⟩,
            ⟨false, [], ⟨none, .fail [120], none⟩⟩] : List CallSpec).length ∧
    (runGetProductCalls MState.init
        [⟨true, [97], ⟨none, .reply [], none⟩⟩,
         ⟨false, [], ⟨none, .fail [120], none⟩⟩]).errorCount
      = MState.init.errorCount
        + ([⟨true, [97], ⟨none, .reply [], none⟩⟩,
            ⟨false, [], ⟨none, .fail [120], none⟩⟩] : List CallSpec).countP
            (fun c => callFails c.fault) :=
  ⟨by decide,
    (metrics_monotonicity MState.init
      [⟨true, [97], ⟨none, .reply [], none⟩⟩,
       ⟨false, [], ⟨none, .fail [120], none⟩⟩] (by decide)).1,
    (metrics_monotonicity MState.init
      [⟨true, [97], ⟨none, .reply [], none⟩⟩,
       ⟨false, [], ⟨none, .fail [120], none⟩⟩] (by decide)).2.1⟩

/-! ## Transaction-history cache update (src/unnamed/part_000) -/

/-- impl.processTransactionForAcct from src/unnamed/part_000 lines
67-82. The cache is modelled as an association list updated by
prepending (Put), and the cache read, which may load from the repository
and fail, is modelled by an injected result; a failed read returns
without touching the cache. Transactions are opaque values; logging has
no observable effect and is omitted. -/
def processTransactionForAcct {α : Type} (HistoryLimit : Int)
    (cache : List (String × List α)) (accountID : String) (transaction : α)
    (getResult : Except String (List α)) : List (String × List α) :=
  match getResult with
  | .error _ => cache
  | .ok got =>
      let txns := transaction :: got
      let txns2 :=
        if (txns.length : Int) > HistoryLimit then txns.take HistoryLimit.toNat else txns
      (accountID, txns2) :: cache

/-- C10: for an account whose transaction list is cached with length at
most HistoryLimit, a successful processTransactionForAcct stores the new
transaction followed by the previous entries, truncated to HistoryLimit
(so the length never exceeds the limit, and with a positive limit the
stored list starts with the new transaction); a failed cache read leaves
the cache unchanged. -/
theorem processTransaction_cache_invariant {α : Type} (limit : Int)
    (cache : List (String × List α)) (accountID : String) (txn : α) (prev : List α)
    (hl : cache.lookup accountID = some prev) (hb : (prev.length : Int) ≤ limit) :
    (∀ m, processTransactionForAcct limit cache accountID txn (.error m) = cache) ∧
    (processTransactionForAcct limit cache accountID txn (.ok prev)).lookup accountID
      = some ((txn :: prev).take (min (prev.length + 1) limit.toNat)) ∧
    ((txn :: prev).take (min (prev.length + 1) limit.toNat)).length ≤ limit.toNat ∧
    (1 ≤ limit →
      (txn :: prev).take (min (prev.length + 1) limit.toNat)
        = txn :: prev.take (min prev.length (limit.toNat - 1))) := by
  have hnn : (0 : Int) ≤ limit := le_trans (by omega) hb
  refine ⟨fun m => rfl, ?_, ?_, ?_⟩
  · simp only [processTransactionForAcct, List.lookup, beq_self_eq_true]
    by_cases hgt : ((txn :: prev).length : Int) > limit
    · have : min (prev.length + 1) limit.toNat = limit.toNat := by
        simp at hgt; omega
      simp [hgt, this]
      omega
    · have : min (prev.length + 1) limit.toNat = prev.length + 1 := by
        simp at hgt; omega
      simp [hgt, this, List.take_of_length_le]
      omega
  · simp [List.length_take]
  · intro hpos
    have : min (prev.length + 1) limit.toNat = (min prev.length (limit.toNat - 1)) + 1 := by
      omega
    rw [this, List.take_succ_cons]

/-- Witness for C10: limit 2, account "a" cached with one transaction. -/
theorem processTransaction_cache_invariant_witness :
    ([("a", [7])].lookup "a" = some [7] ∧ ((7 : Nat) :: []).length ≤ (2 : Int).toNat) ∧
    (processTransactionForAcct 2 [("a", [7])] "a" 9 (.ok [7])).lookup "a"
      = some (((9 : Nat) :: [7]).take (min ([7].length + 1) (2 : Int).toNat)) :=
  ⟨⟨by decide, by decide⟩,
    (processTransaction_cache_invariant 2 [("a", [7])] "a" 9 [7]
      (by decide) (by decide)).2.1⟩
